import Mathlib

/-!
Verification development for the iw-relay WebSocket relay server
(`server.js`, class `ImpossibleWriterRelay`).

The server keeps three maps — `rooms` (roomId → Set of connections),
`userRates` (connectionId → `{count, resetTime}`), `roomExpiry`
(roomId → expiry timestamp) — plus a `stats` record.  The operations are
`handleConnection`, `handleMessage`, `handleDisconnection`,
`broadcastToRoom`, `sendToClient`, `checkRateLimit`, and the body of the
`setInterval` callback installed by `startCleanupInterval`.

JavaScript `Map`s are embedded as association lists with `Map.get` /
`Map.set` / `Map.delete` semantics; `Set`s of WebSocket objects are
embedded as duplicate-free lists of connection identifiers (identifiers
are cryptographically random, collisions negligible, so object identity
coincides with identifier equality).  A WebSocket object itself is an
entry of `conns` carrying the fields the server writes on it
(`ws.roomId`) plus its transport `readyState`; `ws.send` and `ws.close`
calls are recorded in an ordered event trace.  Timestamps (`Date.now()`)
are passed in explicitly as `Nat` milliseconds.
-/

namespace IwRelay

/-- Configuration object of the `ImpossibleWriterRelay` constructor, with
the source defaults (rate limit 100 msgs / 1000 ms window, room expiry
24 h, cleanup interval 1 h). -/
structure Config where
  rateLimit : Nat
  rateLimitWindow : Nat
  roomExpiry : Nat
  cleanupInterval : Nat
deriving DecidableEq

/-- The default configuration from the constructor. -/
def defaultConfig : Config :=
  ⟨100, 1000, 24 * 60 * 60 * 1000, 60 * 60 * 1000⟩

/-- `userRates` entry: `{ count, resetTime }`. -/
structure RateData where
  count : Nat
  resetTime : Nat
deriving DecidableEq

section AssocMap

variable {α : Type}

/-- `Map.get`: value of the first entry with the given key. -/
def find? (k : String) : List (String × α) → Option α
  | [] => none
  | p :: rest => if p.1 = k then some p.2 else find? k rest

/-- `Map.delete`: drop every entry with the given key. -/
def eraseA (k : String) : List (String × α) → List (String × α)
  | [] => []
  | p :: rest => if p.1 = k then eraseA k rest else p :: eraseA k rest

/-- `Map.set`: bind the key to the value (extensionally). -/
def insertA (k : String) (v : α) (l : List (String × α)) : List (String × α) :=
  (k, v) :: eraseA k l

end AssocMap

/-- Inbound message envelope: a parsed JSON object.  The server reads and
writes only the `type`, `connectionId` and `timestamp` fields; every other
field rides along opaquely in `rest` (field name paired with its JSON
value, kept abstract as a string).  A `none` component models an absent
field. -/
structure Message where
  type? : Option String
  connectionId? : Option String
  timestamp? : Option Nat
  rest : List (String × String)
deriving DecidableEq

/-- JavaScript truthiness of `message.type` in `if (!message.type)`:
present and non-empty. -/
def Message.hasType (m : Message) : Bool :=
  match m.type? with
  | some s => !(s = "")
  | none => false

/-- `message.connectionId = ws.connectionId; message.timestamp = Date.now()`
— the server stamping in `handleMessage`, overwriting client-supplied
values and leaving every other field unchanged. -/
def Message.stamp (m : Message) (cid : String) (now : Nat) : Message :=
  { m with connectionId? := some cid, timestamp? := some now }

/-- The `code` field of server `error` messages. -/
inductive ErrCode where
  | RATE_LIMIT_EXCEEDED
  | PARSE_ERROR
  | INVALID_MESSAGE
deriving DecidableEq

/-- Server-originated outbound payloads (`JSON.stringify` argument of each
`ws.send` in the source). -/
inductive ServerMsg where
  | connected (connectionId roomId : String) (userCount : Nat)
  | userJoined (connectionId : String) (userCount : Nat)
  | userLeft (connectionId : String) (userCount : Nat)
  | roomExpired
  | serverShutdown
  | err (code : ErrCode)
  | relayed (m : Message)
deriving DecidableEq

/-- Observable transport actions, in program order: a successful
`ws.send` (recorded with the receiving connection) and a `ws.close(code,
reason)` call. -/
inductive Ev where
  | sent (target : String) (msg : ServerMsg)
  | closed (target : String) (code : Nat) (reason : String)
deriving DecidableEq

/-- The fields the server stores on a WebSocket object: `ws.roomId`
(assigned at join) and the transport state (`readyState = OPEN` as a
boolean). -/
structure ConnInfo where
  roomId : String
  readyState : Bool
deriving DecidableEq

/-- The mutable `this.stats` counters touched by the core operations. -/
structure Stats where
  messagesRelayed : Nat
  connectionsTotal : Nat
  disconnectionsTotal : Nat
  rateLimitsHit : Nat
deriving DecidableEq

/-- The whole mutable server state: the three registry maps, the
WebSocket objects the server has admitted (keyed by their assigned
connection identifier), the stats counters, and the trace of transport
events emitted so far. -/
structure RelayState where
  rooms : List (String × List String)
  userRates : List (String × RateData)
  roomExpiry : List (String × Nat)
  conns : List (String × ConnInfo)
  stats : Stats
  events : List Ev
deriving DecidableEq

/-- Constructor state: all maps empty, counters zero. -/
def initState : RelayState :=
  ⟨[], [], [], [], ⟨0, 0, 0, 0⟩, []⟩

/-- `ws.readyState === WebSocket.OPEN` for the connection with the given
identifier (false for an unknown identifier). -/
def connOpen (conns : List (String × ConnInfo)) (cid : String) : Bool :=
  match find? cid conns with
  | some ci => ci.readyState
  | none => false

/-- `sendToClient(ws, message)`: sends only when the transport is open
(the surrounding try/catch swallows send failures). -/
def sendToClient (conns : List (String × ConnInfo)) (cid : String)
    (m : ServerMsg) : List Ev :=
  if connOpen conns cid then [.sent cid m] else []

/-- `Set.add`: insert the connection if not already a member, keeping
insertion order. -/
def addMem (cid : String) (l : List String) : List String :=
  if cid ∈ l then l else l ++ [cid]

/-- `broadcastToRoom(roomId, message, excludeWs)`: send to every member
of the room other than the excluded connection whose transport is open;
a missing room means no sends at all. -/
def broadcastToRoom (rooms : List (String × List String))
    (conns : List (String × ConnInfo)) (roomId : String) (m : ServerMsg)
    (exclude : Option String) : List Ev :=
  match find? roomId rooms with
  | none => []
  | some members =>
      (members.filter
        (fun c => decide (some c ≠ exclude) && connOpen conns c)).map
        (fun c => .sent c m)

/-- `checkRateLimit(connectionId)` on the stored rate entry: fail closed
on a missing entry; reset the window when `now > resetTime` (the reset
persists, because the entry is mutated in place); reject without
incrementing at the limit; otherwise increment and accept.  Returns the
verdict together with the entry as left in `userRates`. -/
def checkRateLimit (cfg : Config) (now : Nat) :
    Option RateData → Bool × Option RateData
  | none => (false, none)
  | some rd =>
      let rd1 := if rd.resetTime < now then ⟨0, now + cfg.rateLimitWindow⟩ else rd
      if cfg.rateLimit ≤ rd1.count then (false, some rd1)
      else (true, some ⟨rd1.count + 1, rd1.resetTime⟩)

/-- `String.prototype.split(sep)` for a single-character separator, on
the character list of the string: `"/room/"` splits to
`["", "room", ""]`. -/
def splitOnChar (sep : Char) : List Char → List (List Char)
  | [] => [[]]
  | c :: rest =>
      match splitOnChar sep rest with
      | [] => [[]]
      | s :: ss => if c = sep then [] :: s :: ss else (c :: s) :: ss

/-- `String.prototype.startsWith` on character lists (pattern first). -/
def listStartsWith : List Char → List Char → Bool
  | [], _ => true
  | _ :: _, [] => false
  | p :: ps, c :: cs => p = c && listStartsWith ps cs

/-- Room-id resolution at the top of `handleConnection`: a path beginning
with `/room/` yields the second non-empty path segment (and the query is
then never consulted); otherwise a truthy `room` query parameter is used. -/
def resolveRoomId (pathname : String) (queryRoom : Option String) :
    Option String :=
  if listStartsWith "/room/".toList pathname.toList then
    match (splitOnChar '/' pathname.toList).filter
        (fun part => 0 < part.length) with
    | _ :: b :: _ => some (String.mk b)
    | _ => none
  else
    match queryRoom with
    | some q => if q = "" then none else some q
    | none => none

/-- The `/^[a-zA-Z0-9_-]+$/` room-id validation regex. -/
def validRoomId (roomId : String) : Bool :=
  !roomId.toList.isEmpty &&
    roomId.toList.all (fun c => c.isAlphanum || c = '_' || c = '-')

/-- `handleConnection(ws, req)` for an incoming upgrade: resolve and
validate the room id (rejecting with close code 1008 before touching any
map), then register the rate entry, create the room on first join
(recording its expiry deadline exactly then), add the member, bump
`connectionsTotal`, send the `connected` welcome, and announce
`user-joined` to the rest of the room.  `cid` is the connection
identifier freshly generated by `crypto.randomBytes`. -/
def handleConnection (cfg : Config) (st : RelayState) (now : Nat)
    (cid pathname : String) (queryRoom : Option String) : RelayState :=
  match resolveRoomId pathname queryRoom with
  | none =>
      { st with events := st.events ++
          [.closed cid 1008 "Room ID required. Use /room/{roomId} or /?room={roomId}"] }
  | some roomId =>
      if validRoomId roomId = false then
        { st with events := st.events ++
            [.closed cid 1008 "Invalid room ID format. Use alphanumeric characters, dash, or underscore only."] }
      else
        let rates := insertA cid ⟨0, now + cfg.rateLimitWindow⟩ st.userRates
        let roomExisted := (find? roomId st.rooms).isSome
        let rooms0 := if roomExisted then st.rooms else insertA roomId [] st.rooms
        let expiry := if roomExisted then st.roomExpiry
          else insertA roomId (now + cfg.roomExpiry) st.roomExpiry
        let members := addMem cid ((find? roomId rooms0).getD [])
        let rooms1 := insertA roomId members rooms0
        let conns1 := insertA cid ⟨roomId, true⟩ st.conns
        let userCount := members.length
        { rooms := rooms1
          userRates := rates
          roomExpiry := expiry
          conns := conns1
          stats := { st.stats with connectionsTotal := st.stats.connectionsTotal + 1 }
          events := st.events ++
            sendToClient conns1 cid (.connected cid roomId userCount) ++
            broadcastToRoom rooms1 conns1 roomId (.userJoined cid userCount) (some cid) }

/-- `handleMessage(ws, data)`: rate-limit first (the verdict's updated
entry is persisted, since the JS entry is mutated in place), then parse
(`data = none` models a `JSON.parse` failure, caught and answered with
`PARSE_ERROR`), then require a truthy `type`, then stamp and broadcast to
the sender's room excluding the sender.  The handler is installed only on
admitted sockets, so an unknown identifier is a no-op. -/
def handleMessage (cfg : Config) (st : RelayState) (now : Nat)
    (cid : String) (data : Option Message) : RelayState :=
  match find? cid st.conns with
  | none => st
  | some ci =>
      let res := checkRateLimit cfg now (find? cid st.userRates)
      let rates := match res.2 with
        | some rd => insertA cid rd st.userRates
        | none => st.userRates
      if res.1 = false then
        { st with userRates := rates
                  stats := { st.stats with rateLimitsHit := st.stats.rateLimitsHit + 1 }
                  events := st.events ++ sendToClient st.conns cid (.err .RATE_LIMIT_EXCEEDED) }
      else
        match data with
        | none =>
            { st with userRates := rates
                      events := st.events ++ sendToClient st.conns cid (.err .PARSE_ERROR) }
        | some m =>
            if m.hasType = false then
              { st with userRates := rates
                        events := st.events ++ sendToClient st.conns cid (.err .INVALID_MESSAGE) }
            else
              { st with userRates := rates
                        stats := { st.stats with messagesRelayed := st.stats.messagesRelayed + 1 }
                        events := st.events ++
                          broadcastToRoom st.rooms st.conns ci.roomId
                            (.relayed (m.stamp cid now)) (some cid) }

/-- `handleDisconnection(ws)`: a socket that never joined (no
`ws.roomId`/`ws.connectionId`) or whose room is already gone returns at
once — in the latter case without touching `userRates`.  Otherwise remove
the member, bump `disconnectionsTotal`, broadcast `user-left` to the
remaining members, delete the room and its expiry entry when it became
empty, and drop the rate entry. -/
def handleDisconnection (st : RelayState) (cid : String) : RelayState :=
  match find? cid st.conns with
  | none => st
  | some ci =>
      match find? ci.roomId st.rooms with
      | none => st
      | some members =>
          let members1 := members.filter (fun c => decide (c ≠ cid))
          let rooms1 := insertA ci.roomId members1 st.rooms
          let evs := broadcastToRoom rooms1 st.conns ci.roomId
            (.userLeft cid members1.length) none
          let stats1 := { st.stats with
            disconnectionsTotal := st.stats.disconnectionsTotal + 1 }
          if members1.length = 0 then
            { st with rooms := eraseA ci.roomId st.rooms
                      roomExpiry := eraseA ci.roomId st.roomExpiry
                      userRates := eraseA cid st.userRates
                      stats := stats1
                      events := st.events ++ evs }
          else
            { st with rooms := rooms1
                      userRates := eraseA cid st.userRates
                      stats := stats1
                      events := st.events ++ evs }

/-- `ws.close()` makes the transport leave the OPEN state at once. -/
def setClosed (cid : String) (conns : List (String × ConnInfo)) :
    List (String × ConnInfo) :=
  match find? cid conns with
  | some ci => insertA cid ⟨ci.roomId, false⟩ conns
  | none => conns

/-- One iteration of `room.forEach` in the cleanup callback: attempt the
`room-expired` notice (delivered only on an open transport), then call
`ws.close(1000, ...)`, which takes the transport out of the OPEN state. -/
def closeMember (acc : RelayState) (c : String) : RelayState :=
  { acc with
    events := acc.events ++ sendToClient acc.conns c .roomExpired ++
      [.closed c 1000 "Room expired after 24 hours"]
    conns := setClosed c acc.conns }

/-- Body of the per-expired-room loop in the cleanup callback: if the
room still exists, notify and close each member in turn, then delete the
room and its expiry entry. -/
def expireRoom (st : RelayState) (roomId : String) : RelayState :=
  match find? roomId st.rooms with
  | none => st
  | some members =>
      let st1 := members.foldl closeMember st
      { st1 with rooms := eraseA roomId st1.rooms
                 roomExpiry := eraseA roomId st1.roomExpiry }

/-- One tick of the `setInterval` callback installed by
`startCleanupInterval`: collect every room whose recorded expiry is in
the past (`now > expiry`), then expire each in turn. -/
def cleanupTick (st : RelayState) (now : Nat) : RelayState :=
  ((st.roomExpiry.filter (fun p => decide (p.2 < now))).map Prod.fst).foldl
    expireRoom st

/-- External events driving the server: an upgrade request (with a fresh
crypto-random identifier for the would-be connection), an inbound frame,
a close/error event firing `handleDisconnection`, a transport-level drop
(the interval in which the socket has left OPEN but its close event has
not yet been processed), and a cleanup-interval tick. -/
inductive Op where
  | connect (now : Nat) (cid pathname : String) (queryRoom : Option String)
  | message (now : Nat) (cid : String) (data : Option Message)
  | disconnect (cid : String)
  | drop (cid : String)
  | tick (now : Nat)

/-- Event dispatch.  A `connect` whose candidate identifier collides with
an existing socket is not modelled (identifiers are crypto-random;
the spec calls collisions negligible), so it is a no-op. -/
def applyOp (cfg : Config) (st : RelayState) : Op → RelayState
  | .connect now cid pathname q =>
      if (find? cid st.conns).isSome then st
      else handleConnection cfg st now cid pathname q
  | .message now cid data => handleMessage cfg st now cid data
  | .disconnect cid => handleDisconnection st cid
  | .drop cid => { st with conns := setClosed cid st.conns }
  | .tick now => cleanupTick st now

/-- The state after a sequence of events from server start. -/
def run (cfg : Config) (ops : List Op) : RelayState :=
  ops.foldl (applyOp cfg) initState

/-- States the server can actually be in. -/
def Reachable (cfg : Config) (st : RelayState) : Prop :=
  ∃ ops : List Op, run cfg ops = st

/-- A sequence of `checkRateLimit` calls at the given times, threading
the stored entry; returns the verdicts in order and the final entry. -/
def rateCalls (cfg : Config) : List Nat → Option RateData → List Bool × Option RateData
  | [], s => ([], s)
  | t :: ts, s =>
      let r := checkRateLimit cfg t s
      let rest := rateCalls cfg ts r.2
      (r.1 :: rest.1, rest.2)

/-- The room a connection's socket object is bound to, if any. -/
def roomIdOf (conns : List (String × ConnInfo)) (c : String) : Option String :=
  (find? c conns).map ConnInfo.roomId

/-- Registry invariants maintained by every operation: a room is in
`rooms` iff it is in `roomExpiry`; rooms are never empty; room keys pass
the id validation; each member's socket is registered and bound to that
room (so rooms have pairwise disjoint member sets); member lists are
duplicate-free. -/
structure Inv (st : RelayState) : Prop where
  keysIff : ∀ r, (find? r st.rooms).isSome ↔ (find? r st.roomExpiry).isSome
  membersNonempty : ∀ r members, find? r st.rooms = some members → members ≠ []
  roomsValid : ∀ r, (find? r st.rooms).isSome → validRoomId r = true
  memCoh : ∀ r members c, find? r st.rooms = some members → c ∈ members →
    ∃ ci : ConnInfo, find? c st.conns = some ci ∧ ci.roomId = r
  membersNodup : ∀ r members, find? r st.rooms = some members → members.Nodup

section AssocMapLemmas

variable {α : Type}

@[simp] theorem find?_nil (k : String) : find? k ([] : List (String × α)) = none := rfl

@[simp] theorem find?_cons (k : String) (p : String × α) (l : List (String × α)) :
    find? k (p :: l) = if p.1 = k then some p.2 else find? k l := rfl

theorem find?_eraseA_self (k : String) (l : List (String × α)) :
    find? k (eraseA k l) = none := by
  induction l with
  | nil => rfl
  | cons p rest ih => by_cases hp : p.1 = k <;> simp [eraseA, hp, ih]

theorem find?_eraseA_ne (k k' : String) (hk : k ≠ k') (l : List (String × α)) :
    find? k (eraseA k' l) = find? k l := by
  induction l with
  | nil => rfl
  | cons p rest ih =>
    by_cases hp : p.1 = k'
    · by_cases hpk : p.1 = k
      · exact absurd (hpk.symm.trans hp) hk
      · simp [eraseA, hp, hpk, ih, Ne.symm hk]
    · by_cases hpk : p.1 = k <;> simp [eraseA, hp, hpk, ih, hk]

@[simp] theorem find?_eraseA (k k' : String) (l : List (String × α)) :
    find? k (eraseA k' l) = if k = k' then none else find? k l := by
  by_cases hk : k = k'
  · subst hk; simp [find?_eraseA_self]
  · simp [hk, find?_eraseA_ne k k' hk]

@[simp] theorem find?_insertA (k k' : String) (v : α) (l : List (String × α)) :
    find? k (insertA k' v l) = if k = k' then some v else find? k l := by
  by_cases hk : k = k'
  · subst hk; simp [insertA]
  · have hk' : k' ≠ k := fun h => hk h.symm
    simp [insertA, hk, hk']

theorem find?_mem {l : List (String × α)} {k : String} {v : α}
    (h : find? k l = some v) : (k, v) ∈ l := by
  induction l with
  | nil => simp [find?] at h
  | cons p rest ih =>
    by_cases hp : p.1 = k
    · simp [hp] at h
      have : p = (k, v) := by
        cases p
        simp only [Prod.mk.injEq]
        exact ⟨hp, h⟩
      rw [← this]
      exact List.mem_cons_self p rest
    · simp [hp] at h
      exact List.mem_cons_of_mem _ (ih h)

end AssocMapLemmas

theorem rateCalls_within (cfg : Config) :
    ∀ (ts : List Nat) (c R : Nat), (∀ t ∈ ts, t ≤ R) →
      c + ts.length ≤ cfg.rateLimit →
      rateCalls cfg ts (some ⟨c, R⟩) =
        (List.replicate ts.length true, some ⟨c + ts.length, R⟩) := by
  intro ts
  induction ts with
  | nil => intro c R _ _; simp [rateCalls]
  | cons t ts ih =>
      intro c R h hc
      have hreset : ¬ (R < t) := Nat.not_lt.mpr (h t (by simp))
      have hcount : ¬ (cfg.rateLimit ≤ c) := by
        simp only [List.length_cons] at hc; omega
      have hrec := ih (c + 1) R (fun u hu => h u (by simp [hu]))
        (by simp only [List.length_cons] at hc; omega)
      simp only [rateCalls, checkRateLimit, hreset, if_false, hcount,
        List.length_cons, List.replicate_succ, hrec]
      have : c + 1 + ts.length = c + (ts.length + 1) := by omega
      rw [this]

/-- C3: `checkRateLimit` satisfies the fixed-window contract: a missing
entry is rejected (fail closed); within the window it rejects at the
limit without incrementing and otherwise increments and accepts; once the
stored reset time has passed it behaves as if the entry had just been
re-registered with count 0 and reset time `now + window`.  Consequently,
from a fresh entry, `rateLimit` calls within one window all return true
leaving the count at the limit, a further call within the window returns
false, and a call after the window elapses returns true again. -/
theorem C3_checkRateLimit_contract (cfg : Config) :
    (∀ now, checkRateLimit cfg now none = (false, none)) ∧
    (∀ now rd, now ≤ rd.resetTime → cfg.rateLimit ≤ rd.count →
      checkRateLimit cfg now (some rd) = (false, some rd)) ∧
    (∀ now rd, now ≤ rd.resetTime → rd.count < cfg.rateLimit →
      checkRateLimit cfg now (some rd) =
        (true, some ⟨rd.count + 1, rd.resetTime⟩)) ∧
    (∀ now rd, rd.resetTime < now →
      checkRateLimit cfg now (some rd) =
        checkRateLimit cfg now (some ⟨0, now + cfg.rateLimitWindow⟩)) ∧
    (∀ R ts, (∀ t ∈ ts, t ≤ R) → ts.length = cfg.rateLimit →
      rateCalls cfg ts (some ⟨0, R⟩) =
        (List.replicate cfg.rateLimit true, some ⟨cfg.rateLimit, R⟩)) ∧
    (∀ R u, u ≤ R →
      (checkRateLimit cfg u (some ⟨cfg.rateLimit, R⟩)).1 = false) ∧
    (∀ R v, R < v → 1 ≤ cfg.rateLimit →
      (checkRateLimit cfg v (some ⟨cfg.rateLimit, R⟩)).1 = true) := by
  refine ⟨fun _ => rfl, ?_, ?_, ?_, ?_, ?_, ?_⟩
  · intro now rd h1 h2
    simp [checkRateLimit, Nat.not_lt.mpr h1, h2]
  · intro now rd h1 h2
    simp [checkRateLimit, Nat.not_lt.mpr h1, Nat.not_le.mpr h2]
  · intro now rd h
    have h2 : ¬ ((now + cfg.rateLimitWindow) < now) :=
      Nat.not_lt.mpr (Nat.le_add_right now cfg.rateLimitWindow)
    simp [checkRateLimit, h, h2]
  · intro R ts h hl
    have := rateCalls_within cfg ts 0 R h (by omega)
    simpa [hl] using this
  · intro R u hu
    simp [checkRateLimit, Nat.not_lt.mpr hu]
  · intro R v hv h1
    have h2 : ¬ (cfg.rateLimit ≤ 0) := by omega
    simp [checkRateLimit, hv, h2]

/-- Witness for C3 at limit 2, window 1000: an unregistered id is
rejected; two calls inside the window succeed; a third inside the window
fails; a call after the reset time succeeds again. -/
theorem C3_checkRateLimit_contract_witness :
    checkRateLimit ⟨2, 1000, 86400000, 3600000⟩ 5 none = (false, none) ∧
    rateCalls ⟨2, 1000, 86400000, 3600000⟩ [5, 6] (some ⟨0, 1000⟩) =
      ([true, true], some ⟨2, 1000⟩) ∧
    (checkRateLimit ⟨2, 1000, 86400000, 3600000⟩ 7 (some ⟨2, 1000⟩)).1 = false ∧
    (checkRateLimit ⟨2, 1000, 86400000, 3600000⟩ 1001 (some ⟨2, 1000⟩)).1 = true := by
  obtain ⟨h1, _, _, _, h5, h6, h7⟩ :=
    C3_checkRateLimit_contract ⟨2, 1000, 86400000, 3600000⟩
  refine ⟨h1 5, ?_, h6 1000 7 (by decide), h7 1000 1001 (by decide) (by decide)⟩
  simpa using h5 1000 [5, 6] (by decide) rfl

/-- C4 is a code bug: `handleDisconnection` has no one-shot "already
left" guard, so when both the error and the close event fire for the same
connection the second invocation finds the room still populated,
bumps `disconnectionsTotal` again and broadcasts a second `user-left`.
Concretely, with A and B in room r1, disconnecting A twice leaves
`disconnectionsTotal = 2` and B has received the `user-left {A, 1}`
notification twice (versus 1 and once after a single disconnect). -/
theorem C4_disconnect_not_idempotent :
    (run defaultConfig [Op.connect 0 "A" "/room/r1" none,
        Op.connect 1 "B" "/room/r1" none, Op.disconnect "A",
        Op.disconnect "A"]).stats.disconnectionsTotal = 2 ∧
    (run defaultConfig [Op.connect 0 "A" "/room/r1" none,
        Op.connect 1 "B" "/room/r1" none,
        Op.disconnect "A"]).stats.disconnectionsTotal = 1 ∧
    ((run defaultConfig [Op.connect 0 "A" "/room/r1" none,
        Op.connect 1 "B" "/room/r1" none, Op.disconnect "A",
        Op.disconnect "A"]).events.filter
      (fun e => e = Ev.sent "B" (.userLeft "A" 1))).length = 2 ∧
    ((run defaultConfig [Op.connect 0 "A" "/room/r1" none,
        Op.connect 1 "B" "/room/r1" none, Op.disconnect "A"]).events.filter
      (fun e => e = Ev.sent "B" (.userLeft "A" 1))).length = 1 ∧
    run defaultConfig [Op.connect 0 "A" "/room/r1" none,
        Op.connect 1 "B" "/room/r1" none, Op.disconnect "A",
        Op.disconnect "A"] ≠
      run defaultConfig [Op.connect 0 "A" "/room/r1" none,
        Op.connect 1 "B" "/room/r1" none, Op.disconnect "A"] := by
  refine ⟨rfl, rfl, rfl, rfl, by decide⟩

/-- C6 is a code bug: the cleanup sweep deletes an expired room before
its members' close events are processed, and `handleDisconnection` then
returns at the `if (!room) return` guard without reaching
`this.userRates.delete`, so the rate entry of every member of a swept
room leaks.  Concretely, after room r1 (sole member A) is expired by a
tick and A's close event has run, A's rate entry is still registered
although A is a member of no room. -/
theorem C6_rate_state_leak_after_sweep :
    (find? "A" (run defaultConfig [Op.connect 0 "A" "/room/r1" none,
      Op.tick (24 * 60 * 60 * 1000 + 1),
      Op.disconnect "A"]).userRates).isSome = true ∧
    (run defaultConfig [Op.connect 0 "A" "/room/r1" none,
      Op.tick (24 * 60 * 60 * 1000 + 1),
      Op.disconnect "A"]).rooms = [] ∧
    (run defaultConfig [Op.connect 0 "A" "/room/r1" none,
      Op.tick (24 * 60 * 60 * 1000 + 1),
      Op.disconnect "A"]).roomExpiry = [] := by
  refine ⟨rfl, rfl, rfl⟩

theorem addMem_self_mem (c : String) (l : List String) : c ∈ addMem c l := by
  by_cases h : c ∈ l <;> simp [addMem, h]

/-- C10 counterexample: a request whose path is `/room/` (no usable
segment) but which carries a valid `room` query parameter is closed with
the missing-id reason — the query fallback is only consulted when the
path does not begin with `/room/` at all, so the request never reaches
validation, contrary to the claim. -/
theorem C10_counterexample_query_ignored :
    validRoomId "abc" = true ∧
    resolveRoomId "/room/" (some "abc") = none ∧
    (handleConnection defaultConfig initState 0 "A" "/room/"
        (some "abc")).events =
      [Ev.closed "A" 1008
        "Room ID required. Use /room/{roomId} or /?room={roomId}"] ∧
    (handleConnection defaultConfig initState 0 "A" "/room/"
        (some "abc")).rooms = [] := by
  refine ⟨rfl, rfl, rfl, rfl⟩

/-- C10 amended: when the path begins with `/room/` the room id is
resolved from the path alone (the query parameter is never consulted, so
the path form takes precedence — and a `/room/` path without a usable
segment is rejected even when a `room` query parameter is present);
when the path does not begin with `/room/`, a non-empty `room` query
parameter is used.  A request resolving to a valid id in either form is
admitted: the connection ends up a member of that room rather than being
rejected. -/
theorem C10_room_resolution (pathname : String) (q : Option String) :
    (listStartsWith "/room/".toList pathname.toList = true →
      resolveRoomId pathname q = resolveRoomId pathname none) ∧
    (listStartsWith "/room/".toList pathname.toList = false →
      ∀ s, s ≠ "" → resolveRoomId pathname (some s) = some s) ∧
    (∀ cfg st (now : Nat) cid r, resolveRoomId pathname q = some r →
      validRoomId r = true → find? cid st.conns = none →
      ∃ members,
        find? r (handleConnection cfg st now cid pathname q).rooms =
          some members ∧ cid ∈ members) := by
  refine ⟨?_, ?_, ?_⟩
  · intro h
    unfold resolveRoomId
    rw [h]
    rfl
  · intro h s hs
    unfold resolveRoomId
    rw [h]
    simp [hs]
  · intro cfg st now cid r hres hval _
    by_cases hex : (find? r st.rooms).isSome
    · refine ⟨addMem cid ((find? r st.rooms).getD []), ?_, addMem_self_mem _ _⟩
      simp [handleConnection, hres, hval, hex]
    · refine ⟨addMem cid [], ?_, addMem_self_mem _ _⟩
      simp [handleConnection, hres, hval, hex]

/-- Witness for C10 amended: `/room/x?room=y` resolves to `x` (query
ignored), `/?room=y` resolves to `y`, and a fresh connection to
`/room/x` is admitted as a member of room `x`. -/
theorem C10_room_resolution_witness :
    resolveRoomId "/room/x" (some "y") = resolveRoomId "/room/x" none ∧
    resolveRoomId "/" (some "y") = some "y" ∧
    ∃ members,
      find? "x" (handleConnection defaultConfig initState 0 "A" "/room/x"
        (some "y")).rooms = some members ∧ "A" ∈ members := by
  obtain ⟨h1, _, h3⟩ := C10_room_resolution "/room/x" (some "y")
  obtain ⟨_, k2, _⟩ := C10_room_resolution "/" (some "y")
  exact ⟨h1 rfl, k2 rfl "y" (by decide),
    h3 defaultConfig initState 0 "A" "x" (by decide) (by decide) rfl⟩

theorem Message.stamp_fields (m : Message) (cid : String) (now : Nat) :
    m.stamp cid now = ⟨m.type?, some cid, some now, m.rest⟩ := rfl

theorem broadcastToRoom_delivers (rooms : List (String × List String))
    (conns : List (String × ConnInfo)) (roomId : String) (msg : ServerMsg)
    (exclude : Option String) (c : String)
    (hm : c ∈ (find? roomId rooms).getD []) (he : some c ≠ exclude)
    (ho : connOpen conns c = true) :
    Ev.sent c msg ∈ broadcastToRoom rooms conns roomId msg exclude := by
  cases hroom : find? roomId rooms with
  | none => rw [hroom] at hm; simp at hm
  | some members =>
      rw [hroom] at hm
      simp only [Option.getD_some] at hm
      simp only [broadcastToRoom, hroom]
      exact List.mem_map.mpr ⟨c,
        List.mem_filter.mpr ⟨hm, by simp [he, ho]⟩, rfl⟩

theorem broadcastToRoom_target_mem (rooms : List (String × List String))
    (conns : List (String × ConnInfo)) (roomId : String) (msg : ServerMsg)
    (exclude : Option String) (c : String) (msg' : ServerMsg)
    (h : Ev.sent c msg' ∈ broadcastToRoom rooms conns roomId msg exclude) :
    msg' = msg ∧ c ∈ (find? roomId rooms).getD [] ∧ some c ≠ exclude ∧
      connOpen conns c = true := by
  cases hroom : find? roomId rooms with
  | none => rw [broadcastToRoom, hroom] at h; simp at h
  | some members =>
      rw [broadcastToRoom, hroom] at h
      obtain ⟨a, haf, heq⟩ := List.mem_map.mp h
      obtain ⟨hamem, hap⟩ := List.mem_filter.mp haf
      have hac : a = c ∧ msg = msg' := by
        constructor <;> [skip; skip] <;> cases heq <;> rfl
      obtain ⟨rfl, rfl⟩ := hac
      simp only [Bool.and_eq_true, decide_eq_true_eq] at hap
      exact ⟨rfl, by simp [hamem], hap.1, hap.2⟩

theorem handleMessage_relay_eq (cfg : Config) (st : RelayState) (now : Nat)
    (cid : String) (ci : ConnInfo) (m : Message)
    (hc : find? cid st.conns = some ci)
    (hrate : (checkRateLimit cfg now (find? cid st.userRates)).1 = true)
    (htype : m.hasType = true) :
    (handleMessage cfg st now cid (some m)).events =
      st.events ++ broadcastToRoom st.rooms st.conns ci.roomId
        (.relayed (m.stamp cid now)) (some cid) ∧
    (handleMessage cfg st now cid (some m)).stats.messagesRelayed =
      st.stats.messagesRelayed + 1 := by
  constructor <;> simp [handleMessage, hc, hrate, htype]

/-- C2: a message from connection A that passes rate limiting, parses,
and has a non-empty `type` is delivered to every other member of A's room
whose transport is open, with `connectionId` overwritten to A's
identifier, `timestamp` overwritten to the server clock, and all other
fields (`type` and the rest) unchanged; A itself receives nothing from
this broadcast, no connection outside A's room receives anything, and the
relayed counter is bumped once. -/
theorem C2_relay_delivery (cfg : Config) (st : RelayState) (now : Nat)
    (cid : String) (ci : ConnInfo) (m : Message)
    (hc : find? cid st.conns = some ci)
    (hrate : (checkRateLimit cfg now (find? cid st.userRates)).1 = true)
    (htype : m.hasType = true) :
    (∀ c, c ∈ (find? ci.roomId st.rooms).getD [] → c ≠ cid →
      connOpen st.conns c = true →
      Ev.sent c (ServerMsg.relayed ⟨m.type?, some cid, some now, m.rest⟩) ∈
        (handleMessage cfg st now cid (some m)).events.drop
          st.events.length) ∧
    (∀ msg, Ev.sent cid msg ∉
      (handleMessage cfg st now cid (some m)).events.drop
        st.events.length) ∧
    (∀ c, c ∉ (find? ci.roomId st.rooms).getD [] → ∀ msg, Ev.sent c msg ∉
      (handleMessage cfg st now cid (some m)).events.drop
        st.events.length) ∧
    (handleMessage cfg st now cid (some m)).stats.messagesRelayed =
      st.stats.messagesRelayed + 1 := by
  obtain ⟨hev, hstat⟩ := handleMessage_relay_eq cfg st now cid ci m hc hrate htype
  have hdrop : (handleMessage cfg st now cid (some m)).events.drop
      st.events.length = broadcastToRoom st.rooms st.conns ci.roomId
        (.relayed (m.stamp cid now)) (some cid) := by
    rw [hev, List.drop_left]
  refine ⟨?_, ?_, ?_, hstat⟩
  · intro c hmem hne ho
    rw [hdrop]
    rw [← Message.stamp_fields]
    exact broadcastToRoom_delivers _ _ _ _ _ c hmem (by simp [hne]) ho
  · intro msg hcontra
    rw [hdrop] at hcontra
    obtain ⟨-, -, habs, -⟩ :=
      broadcastToRoom_target_mem _ _ _ _ _ _ _ hcontra
    exact habs rfl
  · intro c hnotmem msg hcontra
    rw [hdrop] at hcontra
    obtain ⟨-, hmem, -, -⟩ :=
      broadcastToRoom_target_mem _ _ _ _ _ _ _ hcontra
    exact hnotmem hmem

/-- Witness for C2: A and B in room doc1, C in room doc2; A sends
`{type: content26, connectionId: spoof, timestamp: 999, data: x1}`;
B receives it restamped with `connectionId = A` and `timestamp = 5`,
while neither A nor C receives anything. -/
theorem C2_relay_delivery_witness :
    (Ev.sent "B" (ServerMsg.relayed ⟨some "content26", some "A", some 5,
        [("data", "x1")]⟩) ∈
      (handleMessage defaultConfig (run defaultConfig
          [Op.connect 0 "A" "/room/doc1" none,
           Op.connect 1 "B" "/room/doc1" none,
           Op.connect 2 "C" "/room/doc2" none]) 5 "A"
        (some ⟨some "content26", some "spoof", some 999,
          [("data", "x1")]⟩)).events.drop
        (run defaultConfig [Op.connect 0 "A" "/room/doc1" none,
           Op.connect 1 "B" "/room/doc1" none,
           Op.connect 2 "C" "/room/doc2" none]).events.length) ∧
    (∀ msg, Ev.sent "A" msg ∉
      (handleMessage defaultConfig (run defaultConfig
          [Op.connect 0 "A" "/room/doc1" none,
           Op.connect 1 "B" "/room/doc1" none,
           Op.connect 2 "C" "/room/doc2" none]) 5 "A"
        (some ⟨some "content26", some "spoof", some 999,
          [("data", "x1")]⟩)).events.drop
        (run defaultConfig [Op.connect 0 "A" "/room/doc1" none,
           Op.connect 1 "B" "/room/doc1" none,
           Op.connect 2 "C" "/room/doc2" none]).events.length) ∧
    (∀ msg, Ev.sent "C" msg ∉
      (handleMessage defaultConfig (run defaultConfig
          [Op.connect 0 "A" "/room/doc1" none,
           Op.connect 1 "B" "/room/doc1" none,
           Op.connect 2 "C" "/room/doc2" none]) 5 "A"
        (some ⟨some "content26", some "spoof", some 999,
          [("data", "x1")]⟩)).events.drop
        (run defaultConfig [Op.connect 0 "A" "/room/doc1" none,
           Op.connect 1 "B" "/room/doc1" none,
           Op.connect 2 "C" "/room/doc2" none]).events.length) := by
  obtain ⟨h1, h2, h3, -⟩ := C2_relay_delivery defaultConfig
    (run defaultConfig [Op.connect 0 "A" "/room/doc1" none,
      Op.connect 1 "B" "/room/doc1" none,
      Op.connect 2 "C" "/room/doc2" none]) 5 "A" ⟨"doc1", true⟩
    ⟨some "content26", some "spoof", some 999, [("data", "x1")]⟩
    (by decide) (by decide) (by decide)
  exact ⟨h1 "B" (by decide) (by decide) (by decide), h2,
    fun msg => h3 "C" (by decide) msg⟩

/-- C8: for every inbound message from an open admitted connection
exactly one branch runs.  A rate-limit rejection appends exactly one
`error`/RATE_LIMIT_EXCEEDED send to the sender (and counts it), a parse
failure exactly one `error`/PARSE_ERROR, a missing/empty `type` exactly
one `error`/INVALID_MESSAGE — in each case the whole event delta is that
single send to the sender, so nobody else receives anything — and on the
relay branch no `error` message is emitted at all. -/
theorem C8_message_error_branches (cfg : Config) (st : RelayState)
    (now : Nat) (cid : String) (ci : ConnInfo) (data : Option Message)
    (hc : find? cid st.conns = some ci)
    (ho : connOpen st.conns cid = true) :
    ((checkRateLimit cfg now (find? cid st.userRates)).1 = false →
      (handleMessage cfg st now cid data).events =
        st.events ++ [Ev.sent cid (ServerMsg.err ErrCode.RATE_LIMIT_EXCEEDED)] ∧
      (handleMessage cfg st now cid data).stats.rateLimitsHit =
        st.stats.rateLimitsHit + 1) ∧
    ((checkRateLimit cfg now (find? cid st.userRates)).1 = true →
      data = none →
      (handleMessage cfg st now cid data).events =
        st.events ++ [Ev.sent cid (ServerMsg.err ErrCode.PARSE_ERROR)]) ∧
    ((checkRateLimit cfg now (find? cid st.userRates)).1 = true →
      ∀ m, data = some m → m.hasType = false →
      (handleMessage cfg st now cid data).events =
        st.events ++ [Ev.sent cid (ServerMsg.err ErrCode.INVALID_MESSAGE)]) ∧
    ((checkRateLimit cfg now (find? cid st.userRates)).1 = true →
      ∀ m, data = some m → m.hasType = true →
      ∀ c code, Ev.sent c (ServerMsg.err code) ∉
        (handleMessage cfg st now cid data).events.drop
          st.events.length) := by
  refine ⟨?_, ?_, ?_, ?_⟩
  · intro hrate
    constructor <;> simp [handleMessage, hc, hrate, sendToClient, ho]
  · intro hrate hdata
    subst hdata
    simp [handleMessage, hc, hrate, sendToClient, ho]
  · intro hrate m hdata htype
    subst hdata
    simp [handleMessage, hc, hrate, htype, sendToClient, ho]
  · intro hrate m hdata htype c code hcontra
    subst hdata
    obtain ⟨hev, -⟩ := handleMessage_relay_eq cfg st now cid ci m hc hrate htype
    rw [hev, List.drop_left] at hcontra
    obtain ⟨heq, -, -, -⟩ :=
      broadcastToRoom_target_mem _ _ _ _ _ _ _ hcontra
    cases heq

/-- Witness for C8: with A and B in room doc1 and A sending `{}` (no
type), the whole event delta is one INVALID_MESSAGE error to A; and a
rate-limit rejection for A (limit 0) appends one RATE_LIMIT_EXCEEDED
error to A only. -/
theorem C8_message_error_branches_witness :
    ((handleMessage defaultConfig (run defaultConfig
        [Op.connect 0 "A" "/room/doc1" none,
         Op.connect 1 "B" "/room/doc1" none]) 5 "A"
      (some ⟨none, none, none, []⟩)).events =
      (run defaultConfig [Op.connect 0 "A" "/room/doc1" none,
         Op.connect 1 "B" "/room/doc1" none]).events ++
        [Ev.sent "A" (ServerMsg.err ErrCode.INVALID_MESSAGE)]) ∧
    ((handleMessage ⟨0, 1000, 86400000, 3600000⟩ (run ⟨0, 1000, 86400000, 3600000⟩
        [Op.connect 0 "A" "/room/doc1" none,
         Op.connect 1 "B" "/room/doc1" none]) 5 "A"
      (some ⟨some "content", none, none, []⟩)).events =
      (run ⟨0, 1000, 86400000, 3600000⟩ [Op.connect 0 "A" "/room/doc1" none,
         Op.connect 1 "B" "/room/doc1" none]).events ++
        [Ev.sent "A" (ServerMsg.err ErrCode.RATE_LIMIT_EXCEEDED)]) := by
  obtain ⟨-, -, h3, -⟩ := C8_message_error_branches defaultConfig
    (run defaultConfig [Op.connect 0 "A" "/room/doc1" none,
      Op.connect 1 "B" "/room/doc1" none]) 5 "A" ⟨"doc1", true⟩
    (some ⟨none, none, none, []⟩) (by decide) (by decide)
  obtain ⟨k1, -, -, -⟩ := C8_message_error_branches ⟨0, 1000, 86400000, 3600000⟩
    (run ⟨0, 1000, 86400000, 3600000⟩ [Op.connect 0 "A" "/room/doc1" none,
      Op.connect 1 "B" "/room/doc1" none]) 5 "A" ⟨"doc1", true⟩
    (some ⟨some "content", none, none, []⟩) (by decide) (by decide)
  exact ⟨h3 (by decide) _ rfl (by decide), (k1 (by decide)).1⟩

theorem handleMessage_frame (cfg : Config) (st : RelayState) (now : Nat)
    (cid : String) (data : Option Message) :
    (handleMessage cfg st now cid data).rooms = st.rooms ∧
    (handleMessage cfg st now cid data).roomExpiry = st.roomExpiry ∧
    (handleMessage cfg st now cid data).conns = st.conns := by
  cases hc : find? cid st.conns with
  | none => simp [handleMessage, hc]
  | some ci =>
      cases hr : (checkRateLimit cfg now (find? cid st.userRates)).1 with
      | false => constructor <;> simp [handleMessage, hc, hr]
      | true =>
          cases data with
          | none => constructor <;> simp [handleMessage, hc, hr]
          | some m =>
              cases ht : m.hasType with
              | false => constructor <;> simp [handleMessage, hc, hr, ht]
              | true => constructor <;> simp [handleMessage, hc, hr, ht]

theorem find?_setClosed (cid c : String) (conns : List (String × ConnInfo)) :
    find? c (setClosed cid conns) =
      if c = cid then (find? cid conns).map (fun ci => ⟨ci.roomId, false⟩)
      else find? c conns := by
  unfold setClosed
  cases h : find? cid conns with
  | none =>
      by_cases hc : c = cid
      · subst hc; simp [h]
      · simp [hc]
  | some ci =>
      by_cases hc : c = cid
      · subst hc; simp [h]
      · simp [hc]

theorem roomIdOf_setClosed (cid c : String)
    (conns : List (String × ConnInfo)) :
    roomIdOf (setClosed cid conns) c = roomIdOf conns c := by
  unfold roomIdOf
  rw [find?_setClosed]
  by_cases hc : c = cid
  · subst hc
    simp only [if_pos rfl]
    cases find? c conns <;> rfl
  · simp [hc]

theorem connOpen_setClosed_ne (cid c : String) (hc : c ≠ cid)
    (conns : List (String × ConnInfo)) :
    connOpen (setClosed cid conns) c = connOpen conns c := by
  unfold connOpen
  rw [find?_setClosed, if_neg hc]

theorem foldClose_frame (ms : List String) :
    ∀ st : RelayState,
      (ms.foldl closeMember st).rooms = st.rooms ∧
      (ms.foldl closeMember st).roomExpiry = st.roomExpiry ∧
      (ms.foldl closeMember st).userRates = st.userRates ∧
      (ms.foldl closeMember st).stats = st.stats := by
  induction ms with
  | nil => intro st; exact ⟨rfl, rfl, rfl, rfl⟩
  | cons c cs ih =>
      intro st
      simpa [List.foldl_cons, closeMember] using ih (closeMember st c)

theorem foldClose_roomIdOf (ms : List String) :
    ∀ (st : RelayState) (c : String),
      roomIdOf (ms.foldl closeMember st).conns c = roomIdOf st.conns c := by
  induction ms with
  | nil => intro st c; rfl
  | cons a cs ih =>
      intro st c
      rw [List.foldl_cons, ih]
      exact roomIdOf_setClosed a c st.conns

theorem foldClose_connOpen_notMem (ms : List String) :
    ∀ (st : RelayState) (c : String), c ∉ ms →
      connOpen (ms.foldl closeMember st).conns c = connOpen st.conns c := by
  induction ms with
  | nil => intro st c _; rfl
  | cons a cs ih =>
      intro st c hc
      have hca : c ≠ a := fun h => hc (h ▸ List.mem_cons_self a cs)
      have hccs : c ∉ cs := fun h => hc (List.mem_cons_of_mem a h)
      rw [List.foldl_cons, ih (closeMember st a) c hccs]
      exact connOpen_setClosed_ne a c hca st.conns

theorem expireRoom_userRates (st : RelayState) (roomId : String) :
    (expireRoom st roomId).userRates = st.userRates := by
  cases h : find? roomId st.rooms with
  | none => simp [expireRoom, h]
  | some members => simp [expireRoom, h, (foldClose_frame members st).2.2.1]

theorem expireRoom_stats (st : RelayState) (roomId : String) :
    (expireRoom st roomId).stats = st.stats := by
  cases h : find? roomId st.rooms with
  | none => simp [expireRoom, h]
  | some members => simp [expireRoom, h, (foldClose_frame members st).2.2.2]

theorem expireRoom_rooms (st : RelayState) (roomId : String) :
    (expireRoom st roomId).rooms =
      if (find? roomId st.rooms).isSome then eraseA roomId st.rooms
      else st.rooms := by
  cases h : find? roomId st.rooms with
  | none => simp [expireRoom, h]
  | some members => simp [expireRoom, h, (foldClose_frame members st).1]

theorem expireRoom_roomExpiry (st : RelayState) (roomId : String) :
    (expireRoom st roomId).roomExpiry =
      if (find? roomId st.rooms).isSome then eraseA roomId st.roomExpiry
      else st.roomExpiry := by
  cases h : find? roomId st.rooms with
  | none => simp [expireRoom, h]
  | some members => simp [expireRoom, h, (foldClose_frame members st).2.1]

theorem expireRoom_roomIdOf (st : RelayState) (roomId c : String) :
    roomIdOf (expireRoom st roomId).conns c = roomIdOf st.conns c := by
  cases h : find? roomId st.rooms with
  | none => simp [expireRoom, h]
  | some members =>
      have := foldClose_roomIdOf members st c
      simp only [expireRoom, h]
      exact this

theorem mem_addMem_iff (c cid : String) (l : List String) :
    c ∈ addMem cid l ↔ c ∈ l ∨ c = cid := by
  by_cases h : cid ∈ l
  · simp only [addMem, if_pos h]
    constructor
    · exact fun hc => Or.inl hc
    · rintro (hc | rfl)
      · exact hc
      · exact h
  · simp [addMem, if_neg h]

theorem addMem_ne_nil (cid : String) (l : List String) : addMem cid l ≠ [] := by
  by_cases h : cid ∈ l
  · simp only [addMem, if_pos h]
    intro hnil
    rw [hnil] at h
    simp at h
  · simp [addMem, if_neg h]

theorem addMem_nodup (cid : String) (l : List String) (h : l.Nodup) :
    (addMem cid l).Nodup := by
  by_cases hc : cid ∈ l
  · simpa [addMem, if_pos hc] using h
  · simp only [addMem, if_neg hc]
    simpa [List.nodup_append] using ⟨h, hc⟩

theorem inv_of_frame {st st' : RelayState} (h1 : st'.rooms = st.rooms)
    (h2 : st'.roomExpiry = st.roomExpiry) (h3 : st'.conns = st.conns)
    (hinv : Inv st) : Inv st' := by
  constructor
  · intro r
    rw [h1, h2]
    exact hinv.keysIff r
  · intro r members h
    rw [h1] at h
    exact hinv.membersNonempty r members h
  · intro r h
    rw [h1] at h
    exact hinv.roomsValid r h
  · intro r members c h hm
    rw [h1] at h
    rw [h3]
    exact hinv.memCoh r members c h hm
  · intro r members h
    rw [h1] at h
    exact hinv.membersNodup r members h

theorem inv_init : Inv initState := by
  constructor
  · intro r
    simp [initState]
  · intro r members h
    simp [initState] at h
  · intro r h
    simp [initState] at h
  · intro r members c h _
    simp [initState] at h
  · intro r members h
    simp [initState] at h

theorem handleConnection_reject_eq (cfg : Config) (st : RelayState)
    (now : Nat) (cid pathname : String) (q : Option String)
    (h : resolveRoomId pathname q = none ∨
      ∃ roomId, resolveRoomId pathname q = some roomId ∧
        validRoomId roomId = false) :
    (handleConnection cfg st now cid pathname q).rooms = st.rooms ∧
    (handleConnection cfg st now cid pathname q).roomExpiry = st.roomExpiry ∧
    (handleConnection cfg st now cid pathname q).userRates = st.userRates ∧
    (handleConnection cfg st now cid pathname q).conns = st.conns ∧
    (handleConnection cfg st now cid pathname q).stats = st.stats ∧
    ∃ reason, (handleConnection cfg st now cid pathname q).events =
      st.events ++ [Ev.closed cid 1008 reason] := by
  rcases h with hres | ⟨roomId, hres, hval⟩
  · refine ⟨?_, ?_, ?_, ?_, ?_, ?_⟩ <;> simp [handleConnection, hres]
  · refine ⟨?_, ?_, ?_, ?_, ?_, ?_⟩ <;> simp [handleConnection, hres, hval]

theorem handleConnection_join_eq (cfg : Config) (st : RelayState)
    (now : Nat) (cid pathname : String) (q : Option String)
    (roomId : String) (ms : List String)
    (hres : resolveRoomId pathname q = some roomId)
    (hval : validRoomId roomId = true)
    (hms : find? roomId st.rooms = some ms) :
    (∀ r, find? r (handleConnection cfg st now cid pathname q).rooms =
      if r = roomId then some (addMem cid ms) else find? r st.rooms) ∧
    (handleConnection cfg st now cid pathname q).roomExpiry =
      st.roomExpiry ∧
    (∀ c, find? c (handleConnection cfg st now cid pathname q).conns =
      if c = cid then some ⟨roomId, true⟩ else find? c st.conns) ∧
    (∀ c, find? c (handleConnection cfg st now cid pathname q).userRates =
      if c = cid then some ⟨0, now + cfg.rateLimitWindow⟩
      else find? c st.userRates) := by
  refine ⟨?_, ?_, ?_, ?_⟩ <;>
    simp [handleConnection, hres, hval, hms, Option.isSome_some]

theorem handleConnection_create_eq (cfg : Config) (st : RelayState)
    (now : Nat) (cid pathname : String) (q : Option String)
    (roomId : String)
    (hres : resolveRoomId pathname q = some roomId)
    (hval : validRoomId roomId = true)
    (hnone : find? roomId st.rooms = none) :
    (∀ r, find? r (handleConnection cfg st now cid pathname q).rooms =
      if r = roomId then some [cid] else find? r st.rooms) ∧
    (∀ r, find? r (handleConnection cfg st now cid pathname q).roomExpiry =
      if r = roomId then some (now + cfg.roomExpiry)
      else find? r st.roomExpiry) ∧
    (∀ c, find? c (handleConnection cfg st now cid pathname q).conns =
      if c = cid then some ⟨roomId, true⟩ else find? c st.conns) ∧
    (∀ c, find? c (handleConnection cfg st now cid pathname q).userRates =
      if c = cid then some ⟨0, now + cfg.rateLimitWindow⟩
      else find? c st.userRates) := by
  refine ⟨?_, ?_, ?_, ?_⟩
  · intro r
    by_cases hr : r = roomId <;>
      simp [handleConnection, hres, hval, hnone, addMem, hr]
  · intro r
    simp [handleConnection, hres, hval, hnone]
  · intro c
    simp [handleConnection, hres, hval, hnone]
  · intro c
    simp [handleConnection, hres, hval, hnone]

theorem inv_handleConnection (cfg : Config) (st : RelayState) (now : Nat)
    (cid pathname : String) (q : Option String)
    (hfresh : find? cid st.conns = none) (hinv : Inv st) :
    Inv (handleConnection cfg st now cid pathname q) := by
  cases hres : resolveRoomId pathname q with
  | none =>
      obtain ⟨h1, h2, -, h4, -, -⟩ :=
        handleConnection_reject_eq cfg st now cid pathname q (Or.inl hres)
      exact inv_of_frame h1 h2 h4 hinv
  | some roomId =>
      cases hval : validRoomId roomId with
      | false =>
          obtain ⟨h1, h2, -, h4, -, -⟩ := handleConnection_reject_eq cfg st
            now cid pathname q (Or.inr ⟨roomId, hres, hval⟩)
          exact inv_of_frame h1 h2 h4 hinv
      | true =>
          cases hex : find? roomId st.rooms with
          | some ms =>
              obtain ⟨hr, he, hc, -⟩ := handleConnection_join_eq cfg st now
                cid pathname q roomId ms hres hval hex
              constructor
              · intro r
                rw [hr r, he]
                by_cases hrr : r = roomId
                · have hsome : (find? roomId st.roomExpiry).isSome :=
                    (hinv.keysIff roomId).mp (by rw [hex]; rfl)
                  simp [hrr, hsome]
                · rw [if_neg hrr]
                  exact hinv.keysIff r
              · intro r members h
                rw [hr r] at h
                by_cases hrr : r = roomId
                · rw [if_pos hrr] at h
                  rw [← Option.some.inj h]
                  exact addMem_ne_nil cid ms
                · rw [if_neg hrr] at h
                  exact hinv.membersNonempty r members h
              · intro r h
                rw [hr r] at h
                by_cases hrr : r = roomId
                · rw [hrr]
                  exact hval
                · rw [if_neg hrr] at h
                  exact hinv.roomsValid r h
              · intro r members c h hm
                rw [hr r] at h
                by_cases hrr : r = roomId
                · subst hrr
                  rw [if_pos rfl] at h
                  rw [← Option.some.inj h] at hm
                  rcases (mem_addMem_iff c cid ms).mp hm with hcm | hcc
                  · obtain ⟨ci, hfind, hrid⟩ := hinv.memCoh r ms c hex hcm
                    have hcc : c ≠ cid := by
                      intro hq
                      rw [hq, hfresh] at hfind
                      cases hfind
                    rw [hc c, if_neg hcc]
                    exact ⟨ci, hfind, hrid⟩
                  · subst hcc
                    rw [hc c, if_pos rfl]
                    exact ⟨⟨r, true⟩, rfl, rfl⟩
                · rw [if_neg hrr] at h
                  obtain ⟨ci, hfind, hrid⟩ := hinv.memCoh r members c h hm
                  have hcc : c ≠ cid := by
                    intro hq
                    rw [hq, hfresh] at hfind
                    cases hfind
                  rw [hc c, if_neg hcc]
                  exact ⟨ci, hfind, hrid⟩
              · intro r members h
                rw [hr r] at h
                by_cases hrr : r = roomId
                · rw [if_pos hrr] at h
                  rw [← Option.some.inj h]
                  exact addMem_nodup cid ms (hinv.membersNodup roomId ms hex)
                · rw [if_neg hrr] at h
                  exact hinv.membersNodup r members h
          | none =>
              obtain ⟨hr, he, hc, -⟩ := handleConnection_create_eq cfg st now
                cid pathname q roomId hres hval hex
              constructor
              · intro r
                rw [hr r, he r]
                by_cases hrr : r = roomId
                · simp [hrr]
                · simp only [if_neg hrr]
                  exact hinv.keysIff r
              · intro r members h
                rw [hr r] at h
                by_cases hrr : r = roomId
                · rw [if_pos hrr] at h
                  rw [← Option.some.inj h]
                  simp
                · rw [if_neg hrr] at h
                  exact hinv.membersNonempty r members h
              · intro r h
                rw [hr r] at h
                by_cases hrr : r = roomId
                · rw [hrr]
                  exact hval
                · rw [if_neg hrr] at h
                  exact hinv.roomsValid r h
              · intro r members c h hm
                rw [hr r] at h
                by_cases hrr : r = roomId
                · subst hrr
                  rw [if_pos rfl] at h
                  rw [← Option.some.inj h] at hm
                  have hcc : c = cid := by simpa using hm
                  subst hcc
                  rw [hc c, if_pos rfl]
                  exact ⟨⟨r, true⟩, rfl, rfl⟩
                · rw [if_neg hrr] at h
                  obtain ⟨ci, hfind, hrid⟩ := hinv.memCoh r members c h hm
                  have hcc : c ≠ cid := by
                    intro hq
                    rw [hq, hfresh] at hfind
                    cases hfind
                  rw [hc c, if_neg hcc]
                  exact ⟨ci, hfind, hrid⟩
              · intro r members h
                rw [hr r] at h
                by_cases hrr : r = roomId
                · rw [if_pos hrr] at h
                  rw [← Option.some.inj h]
                  simp
                · rw [if_neg hrr] at h
                  exact hinv.membersNodup r members h

theorem inv_handleDisconnection (st : RelayState) (cid : String)
    (hinv : Inv st) : Inv (handleDisconnection st cid) := by
  cases hc : find? cid st.conns with
  | none =>
      have heq : handleDisconnection st cid = st := by
        simp [handleDisconnection, hc]
      rw [heq]
      exact hinv
  | some ci =>
      cases hroom : find? ci.roomId st.rooms with
      | none =>
          have heq : handleDisconnection st cid = st := by
            simp [handleDisconnection, hc, hroom]
          rw [heq]
          exact hinv
      | some members =>
          by_cases hlen :
            (members.filter (fun c => decide (c ≠ cid))).length = 0
          · have hrooms : (handleDisconnection st cid).rooms =
                eraseA ci.roomId st.rooms := by
              simp only [handleDisconnection, hc, hroom]
              rw [if_pos hlen]
            have hexp : (handleDisconnection st cid).roomExpiry =
                eraseA ci.roomId st.roomExpiry := by
              simp only [handleDisconnection, hc, hroom]
              rw [if_pos hlen]
            have hconns : (handleDisconnection st cid).conns = st.conns := by
              simp only [handleDisconnection, hc, hroom]
              rw [if_pos hlen]
            constructor
            · intro r
              rw [hrooms, hexp]
              simp only [find?_eraseA]
              by_cases hrr : r = ci.roomId
              · simp [hrr]
              · simp only [if_neg hrr]
                exact hinv.keysIff r
            · intro r ms h
              rw [hrooms] at h
              simp only [find?_eraseA] at h
              by_cases hrr : r = ci.roomId
              · rw [if_pos hrr] at h
                cases h
              · rw [if_neg hrr] at h
                exact hinv.membersNonempty r ms h
            · intro r h
              rw [hrooms] at h
              simp only [find?_eraseA] at h
              by_cases hrr : r = ci.roomId
              · rw [if_pos hrr] at h
                simp at h
              · rw [if_neg hrr] at h
                exact hinv.roomsValid r h
            · intro r ms c h hm
              rw [hrooms] at h
              rw [hconns]
              simp only [find?_eraseA] at h
              by_cases hrr : r = ci.roomId
              · rw [if_pos hrr] at h
                cases h
              · rw [if_neg hrr] at h
                exact hinv.memCoh r ms c h hm
            · intro r ms h
              rw [hrooms] at h
              simp only [find?_eraseA] at h
              by_cases hrr : r = ci.roomId
              · rw [if_pos hrr] at h
                cases h
              · rw [if_neg hrr] at h
                exact hinv.membersNodup r ms h
          · have hrooms : (handleDisconnection st cid).rooms =
                insertA ci.roomId
                  (members.filter (fun c => decide (c ≠ cid))) st.rooms := by
              simp only [handleDisconnection, hc, hroom]
              rw [if_neg hlen]
            have hexp : (handleDisconnection st cid).roomExpiry =
                st.roomExpiry := by
              simp only [handleDisconnection, hc, hroom]
              rw [if_neg hlen]
            have hconns : (handleDisconnection st cid).conns = st.conns := by
              simp only [handleDisconnection, hc, hroom]
              rw [if_neg hlen]
            constructor
            · intro r
              rw [hrooms, hexp]
              simp only [find?_insertA]
              by_cases hrr : r = ci.roomId
              · have hsome : (find? ci.roomId st.roomExpiry).isSome :=
                  (hinv.keysIff ci.roomId).mp (by rw [hroom]; rfl)
                simp [hrr, hsome]
              · simp only [if_neg hrr]
                exact hinv.keysIff r
            · intro r ms h
              rw [hrooms] at h
              simp only [find?_insertA] at h
              by_cases hrr : r = ci.roomId
              · rw [if_pos hrr] at h
                rw [← Option.some.inj h]
                intro hnil
                rw [hnil] at hlen
                exact hlen rfl
              · rw [if_neg hrr] at h
                exact hinv.membersNonempty r ms h
            · intro r h
              rw [hrooms] at h
              simp only [find?_insertA] at h
              by_cases hrr : r = ci.roomId
              · rw [hrr]
                exact hinv.roomsValid ci.roomId (by rw [hroom]; rfl)
              · rw [if_neg hrr] at h
                exact hinv.roomsValid r h
            · intro r ms c h hm
              rw [hrooms] at h
              rw [hconns]
              simp only [find?_insertA] at h
              by_cases hrr : r = ci.roomId
              · rw [if_pos hrr] at h
                rw [← Option.some.inj h] at hm
                have hcm : c ∈ members := List.mem_of_mem_filter hm
                rw [hrr]
                exact hinv.memCoh ci.roomId members c hroom hcm
              · rw [if_neg hrr] at h
                exact hinv.memCoh r ms c h hm
            · intro r ms h
              rw [hrooms] at h
              simp only [find?_insertA] at h
              by_cases hrr : r = ci.roomId
              · rw [if_pos hrr] at h
                rw [← Option.some.inj h]
                exact List.Nodup.filter _
                  (hinv.membersNodup ci.roomId members hroom)
              · rw [if_neg hrr] at h
                exact hinv.membersNodup r ms h

theorem inv_drop (st : RelayState) (cid : String) (hinv : Inv st) :
    Inv { st with conns := setClosed cid st.conns } := by
  constructor
  · exact hinv.keysIff
  · exact hinv.membersNonempty
  · exact hinv.roomsValid
  · intro r members c h hm
    obtain ⟨ci, hfind, hrid⟩ := hinv.memCoh r members c h hm
    show ∃ ci', find? c (setClosed cid st.conns) = some ci' ∧ ci'.roomId = r
    rw [find?_setClosed]
    by_cases hcc : c = cid
    · subst hcc
      rw [if_pos rfl, hfind]
      exact ⟨⟨ci.roomId, false⟩, rfl, hrid⟩
    · rw [if_neg hcc]
      exact ⟨ci, hfind, hrid⟩
  · exact hinv.membersNodup

theorem inv_expireRoom (st : RelayState) (roomId : String) (hinv : Inv st) :
    Inv (expireRoom st roomId) := by
  by_cases hex : (find? roomId st.rooms).isSome
  · constructor
    · intro r
      rw [expireRoom_rooms, expireRoom_roomExpiry, if_pos hex, if_pos hex]
      simp only [find?_eraseA]
      by_cases hrr : r = roomId
      · simp [hrr]
      · simp only [if_neg hrr]
        exact hinv.keysIff r
    · intro r ms h
      rw [expireRoom_rooms, if_pos hex] at h
      simp only [find?_eraseA] at h
      by_cases hrr : r = roomId
      · rw [if_pos hrr] at h
        cases h
      · rw [if_neg hrr] at h
        exact hinv.membersNonempty r ms h
    · intro r h
      rw [expireRoom_rooms, if_pos hex] at h
      simp only [find?_eraseA] at h
      by_cases hrr : r = roomId
      · rw [if_pos hrr] at h
        simp at h
      · rw [if_neg hrr] at h
        exact hinv.roomsValid r h
    · intro r ms c h hm
      rw [expireRoom_rooms, if_pos hex] at h
      simp only [find?_eraseA] at h
      by_cases hrr : r = roomId
      · rw [if_pos hrr] at h
        cases h
      · rw [if_neg hrr] at h
        obtain ⟨ci, hfind, hrid⟩ := hinv.memCoh r ms c h hm
        have hmap : roomIdOf (expireRoom st roomId).conns c = some r := by
          rw [expireRoom_roomIdOf]
          unfold roomIdOf
          rw [hfind]
          simp [hrid]
        unfold roomIdOf at hmap
        cases hfc : find? c (expireRoom st roomId).conns with
        | none => rw [hfc] at hmap; cases hmap
        | some ci' =>
            rw [hfc] at hmap
            simp only [Option.map_some'] at hmap
            exact ⟨ci', rfl, Option.some.inj hmap⟩
    · intro r ms h
      rw [expireRoom_rooms, if_pos hex] at h
      simp only [find?_eraseA] at h
      by_cases hrr : r = roomId
      · rw [if_pos hrr] at h
        cases h
      · rw [if_neg hrr] at h
        exact hinv.membersNodup r ms h
  · have hn : find? roomId st.rooms = none :=
      Option.not_isSome_iff_eq_none.mp hex
    have heq : expireRoom st roomId = st := by
      simp [expireRoom, hn]
    rw [heq]
    exact hinv

theorem inv_foldExpire (l : List String) :
    ∀ st : RelayState, Inv st → Inv (l.foldl expireRoom st) := by
  induction l with
  | nil => intro st hinv; exact hinv
  | cons a rest ih =>
      intro st hinv
      exact ih (expireRoom st a) (inv_expireRoom st a hinv)

theorem inv_cleanupTick (st : RelayState) (now : Nat) (hinv : Inv st) :
    Inv (cleanupTick st now) := by
  unfold cleanupTick
  exact inv_foldExpire _ st hinv

theorem inv_applyOp (cfg : Config) (st : RelayState) (op : Op)
    (hinv : Inv st) : Inv (applyOp cfg st op) := by
  cases op with
  | connect now cid pathname q =>
      by_cases hf : (find? cid st.conns).isSome
      · simp only [applyOp, if_pos hf]
        exact hinv
      · simp only [applyOp, if_neg hf]
        exact inv_handleConnection cfg st now cid pathname q
          (Option.not_isSome_iff_eq_none.mp hf) hinv
  | message now cid data =>
      obtain ⟨h1, h2, h3⟩ := handleMessage_frame cfg st now cid data
      exact inv_of_frame h1 h2 h3 hinv
  | disconnect cid => exact inv_handleDisconnection st cid hinv
  | drop cid => exact inv_drop st cid hinv
  | tick now => exact inv_cleanupTick st now hinv

theorem inv_foldOps (cfg : Config) (l : List Op) :
    ∀ st : RelayState, Inv st → Inv (l.foldl (applyOp cfg) st) := by
  induction l with
  | nil => intro st hinv; exact hinv
  | cons op rest ih =>
      intro st hinv
      exact ih (applyOp cfg st op) (inv_applyOp cfg st op hinv)

theorem inv_run (cfg : Config) (ops : List Op) : Inv (run cfg ops) :=
  inv_foldOps cfg ops initState inv_init

theorem inv_reachable (cfg : Config) (st : RelayState)
    (h : Reachable cfg st) : Inv st := by
  obtain ⟨ops, hops⟩ := h
  rw [← hops]
  exact inv_run cfg ops

/-- C5: a connection attempt whose room identifier is missing or fails
the `^[a-zA-Z0-9_-]+$` validation is closed with code 1008 before any
registry mutation — rooms, expiry, rate state and the socket registry are
all untouched — and consequently every room key in any reachable state
passes validation, so a room like `../etc` never appears. -/
theorem C5_invalid_room_rejected (cfg : Config) :
    (∀ (st : RelayState) (now : Nat) (cid pathname : String)
      (q : Option String),
      (resolveRoomId pathname q = none ∨
        ∃ roomId, resolveRoomId pathname q = some roomId ∧
          validRoomId roomId = false) →
      (handleConnection cfg st now cid pathname q).rooms = st.rooms ∧
      (handleConnection cfg st now cid pathname q).roomExpiry =
        st.roomExpiry ∧
      (handleConnection cfg st now cid pathname q).userRates =
        st.userRates ∧
      (handleConnection cfg st now cid pathname q).conns = st.conns ∧
      ∃ reason, (handleConnection cfg st now cid pathname q).events =
        st.events ++ [Ev.closed cid 1008 reason]) ∧
    (∀ st, Reachable cfg st →
      ∀ r, (find? r st.rooms).isSome → validRoomId r = true) := by
  constructor
  · intro st now cid pathname q h
    obtain ⟨h1, h2, h3, h4, -, h6⟩ :=
      handleConnection_reject_eq cfg st now cid pathname q h
    exact ⟨h1, h2, h3, h4, h6⟩
  · intro st hreach r hr
    exact (inv_reachable cfg st hreach).roomsValid r hr

/-- Witness for C5: joining with room id `../etc` (query form) mutates
nothing and closes the socket with code 1008; and in the reachable state
after a join to `r1`, the present room key `r1` is valid. -/
theorem C5_invalid_room_rejected_witness :
    ((handleConnection defaultConfig initState 0 "A" "/"
        (some "../etc")).rooms = initState.rooms ∧
      (handleConnection defaultConfig initState 0 "A" "/"
        (some "../etc")).roomExpiry = initState.roomExpiry ∧
      (handleConnection defaultConfig initState 0 "A" "/"
        (some "../etc")).userRates = initState.userRates ∧
      (handleConnection defaultConfig initState 0 "A" "/"
        (some "../etc")).conns = initState.conns ∧
      ∃ reason, (handleConnection defaultConfig initState 0 "A" "/"
        (some "../etc")).events =
          initState.events ++ [Ev.closed "A" 1008 reason]) ∧
    validRoomId "r1" = true := by
  obtain ⟨p1, p2⟩ := C5_invalid_room_rejected defaultConfig
  refine ⟨p1 initState 0 "A" "/" (some "../etc")
    (Or.inr ⟨"../etc", rfl, rfl⟩), ?_⟩
  exact p2 (run defaultConfig [Op.connect 0 "A" "/room/r1" none])
    ⟨[Op.connect 0 "A" "/room/r1" none], rfl⟩ "r1" (by decide)

/-- C7: in every reachable state a room identifier is a key of the rooms
map iff it is a key of the expiry map, and no room in the registry is
empty; moreover a leave that empties a room removes the room and its
expiry record within that same `handleDisconnection` call. -/
theorem C7_registry_integrity (cfg : Config) (st : RelayState)
    (h : Reachable cfg st) :
    (∀ r, (find? r st.rooms).isSome ↔ (find? r st.roomExpiry).isSome) ∧
    (∀ r members, find? r st.rooms = some members → members ≠ []) ∧
    (∀ cid ci members, find? cid st.conns = some ci →
      find? ci.roomId st.rooms = some members →
      members.filter (fun c => decide (c ≠ cid)) = [] →
      find? ci.roomId (handleDisconnection st cid).rooms = none ∧
      find? ci.roomId (handleDisconnection st cid).roomExpiry = none) := by
  have hinv := inv_reachable cfg st h
  refine ⟨hinv.keysIff, hinv.membersNonempty, ?_⟩
  intro cid ci members hc hroom hfil
  have hlen : (members.filter (fun c => decide (c ≠ cid))).length = 0 := by
    rw [hfil]
    rfl
  have hrooms : (handleDisconnection st cid).rooms =
      eraseA ci.roomId st.rooms := by
    simp only [handleDisconnection, hc, hroom]
    rw [if_pos hlen]
  have hexp : (handleDisconnection st cid).roomExpiry =
      eraseA ci.roomId st.roomExpiry := by
    simp only [handleDisconnection, hc, hroom]
    rw [if_pos hlen]
  rw [hrooms, hexp]
  exact ⟨find?_eraseA_self _ _, find?_eraseA_self _ _⟩

/-- Witness for C7 after A and B join `r1` and A leaves: the key-set
equivalence holds, rooms are nonempty, and B's final leave deletes room
and expiry together. -/
theorem C7_registry_integrity_witness :
    (∀ r, (find? r (run defaultConfig [Op.connect 0 "A" "/room/r1" none,
        Op.connect 1 "B" "/room/r1" none,
        Op.disconnect "A"]).rooms).isSome ↔
      (find? r (run defaultConfig [Op.connect 0 "A" "/room/r1" none,
        Op.connect 1 "B" "/room/r1" none,
        Op.disconnect "A"]).roomExpiry).isSome) ∧
    (find? "r1" (handleDisconnection (run defaultConfig
        [Op.connect 0 "A" "/room/r1" none, Op.connect 1 "B" "/room/r1" none,
         Op.disconnect "A"]) "B").rooms = none ∧
      find? "r1" (handleDisconnection (run defaultConfig
        [Op.connect 0 "A" "/room/r1" none, Op.connect 1 "B" "/room/r1" none,
         Op.disconnect "A"]) "B").roomExpiry = none) := by
  obtain ⟨p1, -, p3⟩ := C7_registry_integrity defaultConfig
    (run defaultConfig [Op.connect 0 "A" "/room/r1" none,
      Op.connect 1 "B" "/room/r1" none, Op.disconnect "A"])
    ⟨[Op.connect 0 "A" "/room/r1" none, Op.connect 1 "B" "/room/r1" none,
      Op.disconnect "A"], rfl⟩
  exact ⟨p1, p3 "B" ⟨"r1", true⟩ ["B"] (by decide) (by decide) (by decide)⟩

theorem expireRoom_survivor_frame (st : RelayState) (a r : String)
    (ha : (find? r (expireRoom st a).rooms).isSome) :
    find? r (expireRoom st a).rooms = find? r st.rooms ∧
    find? r (expireRoom st a).roomExpiry = find? r st.roomExpiry := by
  by_cases hex : (find? a st.rooms).isSome
  · rw [expireRoom_rooms, if_pos hex] at ha ⊢
    rw [expireRoom_roomExpiry, if_pos hex]
    by_cases hra : r = a
    · rw [hra, find?_eraseA_self] at ha
      cases ha
    · rw [find?_eraseA_ne r a hra, find?_eraseA_ne r a hra]
      exact ⟨rfl, rfl⟩
  · rw [expireRoom_rooms, if_neg hex, expireRoom_roomExpiry, if_neg hex]
    exact ⟨rfl, rfl⟩

theorem foldExpire_survivor_frame (l : List String) :
    ∀ (st : RelayState) (r : String),
      (find? r (l.foldl expireRoom st).rooms).isSome →
      find? r (l.foldl expireRoom st).rooms = find? r st.rooms ∧
      find? r (l.foldl expireRoom st).roomExpiry =
        find? r st.roomExpiry := by
  induction l with
  | nil => intro st r _; exact ⟨rfl, rfl⟩
  | cons a rest ih =>
      intro st r hend
      rw [List.foldl_cons] at hend ⊢
      obtain ⟨ih1, ih2⟩ := ih (expireRoom st a) r hend
      have hmid : (find? r (expireRoom st a).rooms).isSome := by
        rw [← ih1]
        exact hend
      obtain ⟨s1, s2⟩ := expireRoom_survivor_frame st a r hmid
      exact ⟨ih1.trans s1, ih2.trans s2⟩

theorem applyOp_expiry_frame (cfg : Config) (op : Op) (st : RelayState)
    (r : String) (hb : (find? r st.rooms).isSome)
    (ha : (find? r (applyOp cfg st op).rooms).isSome) :
    find? r (applyOp cfg st op).roomExpiry = find? r st.roomExpiry := by
  cases op with
  | connect now cid pathname q =>
      by_cases hf : (find? cid st.conns).isSome
      · simp only [applyOp, if_pos hf]
      · simp only [applyOp, if_neg hf] at ha ⊢
        cases hres : resolveRoomId pathname q with
        | none =>
            obtain ⟨-, h2, -, -, -, -⟩ := handleConnection_reject_eq cfg st
              now cid pathname q (Or.inl hres)
            rw [h2]
        | some roomId =>
            cases hval : validRoomId roomId with
            | false =>
                obtain ⟨-, h2, -, -, -, -⟩ := handleConnection_reject_eq cfg
                  st now cid pathname q (Or.inr ⟨roomId, hres, hval⟩)
                rw [h2]
            | true =>
                cases hex : find? roomId st.rooms with
                | some ms =>
                    obtain ⟨-, he, -, -⟩ := handleConnection_join_eq cfg st
                      now cid pathname q roomId ms hres hval hex
                    rw [he]
                | none =>
                    obtain ⟨-, he, -, -⟩ := handleConnection_create_eq cfg
                      st now cid pathname q roomId hres hval hex
                    have hne : r ≠ roomId := by
                      intro hq
                      rw [hq, hex] at hb
                      cases hb
                    rw [he r, if_neg hne]
  | message now cid data =>
      exact (handleMessage_frame cfg st now cid data).2.1 ▸ rfl
  | disconnect cid =>
      simp only [applyOp] at ha ⊢
      cases hc : find? cid st.conns with
      | none => simp [handleDisconnection, hc]
      | some ci =>
          cases hroom : find? ci.roomId st.rooms with
          | none => simp [handleDisconnection, hc, hroom]
          | some members =>
              by_cases hlen :
                (members.filter (fun c => decide (c ≠ cid))).length = 0
              · have hrooms : (handleDisconnection st cid).rooms =
                    eraseA ci.roomId st.rooms := by
                  simp only [handleDisconnection, hc, hroom]
                  rw [if_pos hlen]
                have hexp : (handleDisconnection st cid).roomExpiry =
                    eraseA ci.roomId st.roomExpiry := by
                  simp only [handleDisconnection, hc, hroom]
                  rw [if_pos hlen]
                rw [hrooms] at ha
                have hne : r ≠ ci.roomId := by
                  intro hq
                  rw [hq, find?_eraseA_self] at ha
                  cases ha
                rw [hexp, find?_eraseA_ne r ci.roomId hne]
              · have hexp : (handleDisconnection st cid).roomExpiry =
                    st.roomExpiry := by
                  simp only [handleDisconnection, hc, hroom]
                  rw [if_neg hlen]
                rw [hexp]
  | drop cid => rfl
  | tick now =>
      simp only [applyOp, cleanupTick] at ha ⊢
      exact (foldExpire_survivor_frame _ st r ha).2

/-- C1: a room's expiry deadline is written exactly once.  On the first
join that creates the room, `roomExpiry` is set to `now + roomExpiry`
(the configured TTL); and over any sequence of further events during
which the room stays present in the registry — joins into it or other
rooms, leaves that do not empty it, messages, drops, cleanup ticks that
do not evict it — its expiry entry is left exactly as it was. -/
theorem C1_expiry_set_once_at_creation (cfg : Config) :
    (∀ (st : RelayState) (now : Nat) (cid pathname : String)
      (q : Option String) (roomId : String),
      resolveRoomId pathname q = some roomId → validRoomId roomId = true →
      find? roomId st.rooms = none →
      find? roomId (handleConnection cfg st now cid pathname q).roomExpiry =
        some (now + cfg.roomExpiry)) ∧
    (∀ (ops : List Op) (st : RelayState) (r : String),
      (∀ n : Nat,
        (find? r ((ops.take n).foldl (applyOp cfg) st).rooms).isSome) →
      find? r (ops.foldl (applyOp cfg) st).roomExpiry =
        find? r st.roomExpiry) := by
  constructor
  · intro st now cid pathname q roomId hres hval hnone
    have := (handleConnection_create_eq cfg st now cid pathname q roomId
      hres hval hnone).2.1 roomId
    simpa using this
  · intro ops
    induction ops with
    | nil => intro st r _; rfl
    | cons op rest ih =>
        intro st r h
        have h0 : (find? r st.rooms).isSome := by
          simpa using h 0
        have h1 : (find? r (applyOp cfg st op).rooms).isSome := by
          simpa [List.take] using h 1
        rw [List.foldl_cons,
          ih (applyOp cfg st op) r (fun n => by simpa [List.take] using h (n + 1))]
        exact applyOp_expiry_frame cfg op st r h0 h1

/-- Witness for C1: creating `r1` at time 7 records expiry
`7 + 24 h`, and after B joins and leaves again (room never emptied, A
remains) the entry is unchanged. -/
theorem C1_expiry_set_once_at_creation_witness :
    find? "r1" (handleConnection defaultConfig initState 7 "A" "/room/r1"
        none).roomExpiry = some (7 + defaultConfig.roomExpiry) ∧
    find? "r1" ([Op.connect 8 "B" "/room/r1" none,
        Op.disconnect "B"].foldl (applyOp defaultConfig)
        (run defaultConfig [Op.connect 7 "A" "/room/r1" none])).roomExpiry =
      find? "r1" (run defaultConfig
        [Op.connect 7 "A" "/room/r1" none]).roomExpiry := by
  obtain ⟨p1, p2⟩ := C1_expiry_set_once_at_creation defaultConfig
  refine ⟨p1 initState 7 "A" "/room/r1" none "r1" rfl rfl rfl, ?_⟩
  refine p2 [Op.connect 8 "B" "/room/r1" none, Op.disconnect "B"]
    (run defaultConfig [Op.connect 7 "A" "/room/r1" none]) "r1" ?_
  intro n
  match n with
  | 0 => decide
  | 1 => decide
  | (k + 2) =>
      have htake : [Op.connect 8 "B" "/room/r1" none,
          Op.disconnect "B"].take (k + 2) =
          [Op.connect 8 "B" "/room/r1" none, Op.disconnect "B"] := by
        simp [List.take]
      rw [htake]
      decide

/-- C9 counterexample: room `r1` (sole member A, whose transport has
dropped out of the OPEN state before the tick) is past its deadline; the
sweep closes A and evicts the room, but no `room-expired` message is ever
sent to A — `sendToClient` skips non-open transports — contradicting the
claim that every member at tick time is sent the message. -/
theorem C9_counterexample_dropped_member_not_notified :
    find? "r1" (run defaultConfig [Op.connect 0 "A" "/room/r1" none,
        Op.drop "A"]).rooms = some ["A"] ∧
    find? "r1" (run defaultConfig [Op.connect 0 "A" "/room/r1" none,
        Op.drop "A"]).roomExpiry = some 86400000 ∧
    86400000 < 86400001 ∧
    ((run defaultConfig [Op.connect 0 "A" "/room/r1" none, Op.drop "A",
        Op.tick 86400001]).events.filter
      (fun e => e = Ev.sent "A" ServerMsg.roomExpired)).length = 0 ∧
    Ev.closed "A" 1000 "Room expired after 24 hours" ∈
      (run defaultConfig [Op.connect 0 "A" "/room/r1" none, Op.drop "A",
        Op.tick 86400001]).events ∧
    find? "r1" (run defaultConfig [Op.connect 0 "A" "/room/r1" none,
        Op.drop "A", Op.tick 86400001]).rooms = none := by
  refine ⟨rfl, rfl, by decide, rfl, by decide, rfl⟩

theorem foldClose_events_mono (ms : List String) :
    ∀ st : RelayState,
      ∃ d, (ms.foldl closeMember st).events = st.events ++ d := by
  induction ms with
  | nil => intro st; exact ⟨[], by simp⟩
  | cons c cs ih =>
      intro st
      obtain ⟨d, hd⟩ := ih (closeMember st c)
      refine ⟨(sendToClient st.conns c ServerMsg.roomExpired ++
        [Ev.closed c 1000 "Room expired after 24 hours"]) ++ d, ?_⟩
      rw [List.foldl_cons, hd]
      show (closeMember st c).events ++ d = _
      simp [closeMember, List.append_assoc]

theorem expireRoom_events_mono (st : RelayState) (roomId : String) :
    ∃ d, (expireRoom st roomId).events = st.events ++ d := by
  cases h : find? roomId st.rooms with
  | none => exact ⟨[], by simp [expireRoom, h]⟩
  | some ms =>
      obtain ⟨d, hd⟩ := foldClose_events_mono ms st
      refine ⟨d, ?_⟩
      have : (expireRoom st roomId).events =
          (ms.foldl closeMember st).events := by
        simp only [expireRoom, h]
      rw [this, hd]

theorem foldExpire_events_mono (l : List String) :
    ∀ st : RelayState,
      ∃ d, (l.foldl expireRoom st).events = st.events ++ d := by
  induction l with
  | nil => intro st; exact ⟨[], by simp⟩
  | cons a rest ih =>
      intro st
      obtain ⟨d1, hd1⟩ := ih (expireRoom st a)
      obtain ⟨d0, hd0⟩ := expireRoom_events_mono st a
      refine ⟨d0 ++ d1, ?_⟩
      rw [List.foldl_cons, hd1, hd0, List.append_assoc]

theorem expireRoom_absent (st : RelayState) (a r : String)
    (h1 : find? r st.rooms = none) (h2 : find? r st.roomExpiry = none) :
    find? r (expireRoom st a).rooms = none ∧
    find? r (expireRoom st a).roomExpiry = none := by
  rw [expireRoom_rooms, expireRoom_roomExpiry]
  by_cases hex : (find? a st.rooms).isSome
  · rw [if_pos hex, if_pos hex]
    by_cases hra : r = a
    · rw [hra, find?_eraseA_self, find?_eraseA_self]
      exact ⟨rfl, rfl⟩
    · rw [find?_eraseA_ne r a hra, find?_eraseA_ne r a hra]
      exact ⟨h1, h2⟩
  · rw [if_neg hex, if_neg hex]
    exact ⟨h1, h2⟩

theorem foldExpire_absent (l : List String) :
    ∀ (st : RelayState) (r : String),
      find? r st.rooms = none → find? r st.roomExpiry = none →
      find? r (l.foldl expireRoom st).rooms = none ∧
      find? r (l.foldl expireRoom st).roomExpiry = none := by
  induction l with
  | nil => intro st r h1 h2; exact ⟨h1, h2⟩
  | cons a rest ih =>
      intro st r h1 h2
      obtain ⟨k1, k2⟩ := expireRoom_absent st a r h1 h2
      exact ih (expireRoom st a) r k1 k2

theorem foldClose_events (ms : List String) :
    ∀ st : RelayState, ms.Nodup →
      ∃ d, (ms.foldl closeMember st).events = st.events ++ d ∧
        ∀ c ∈ ms,
          Ev.closed c 1000 "Room expired after 24 hours" ∈ d ∧
          (connOpen st.conns c = true →
            List.Sublist [Ev.sent c ServerMsg.roomExpired,
              Ev.closed c 1000 "Room expired after 24 hours"] d) := by
  induction ms with
  | nil => intro st _; exact ⟨[], by simp, by simp⟩
  | cons c0 cs ih =>
      intro st hnd
      have hc0 : c0 ∉ cs := (List.nodup_cons.mp hnd).1
      obtain ⟨d', hd', hp'⟩ := ih (closeMember st c0)
        (List.nodup_cons.mp hnd).2
      refine ⟨(sendToClient st.conns c0 ServerMsg.roomExpired ++
        [Ev.closed c0 1000 "Room expired after 24 hours"]) ++ d', ?_, ?_⟩
      · rw [List.foldl_cons, hd']
        show (closeMember st c0).events ++ d' = _
        simp [closeMember, List.append_assoc]
      · intro c hc
        rcases List.mem_cons.mp hc with rfl | hcs
        · constructor
          · exact List.mem_append_left d'
              (List.mem_append_right _ (by simp))
          · intro hopen
            have hchunk : sendToClient st.conns c ServerMsg.roomExpired ++
                [Ev.closed c 1000 "Room expired after 24 hours"] =
                [Ev.sent c ServerMsg.roomExpired,
                 Ev.closed c 1000 "Room expired after 24 hours"] := by
              simp [sendToClient, hopen]
            rw [hchunk]
            exact List.sublist_append_left _ d'
        · have hne : c ≠ c0 := fun hq => hc0 (hq ▸ hcs)
          obtain ⟨hmem, hsub⟩ := hp' c hcs
          constructor
          · exact List.mem_append_right _ hmem
          · intro hopen
            have hopen1 : connOpen (closeMember st c0).conns c = true := by
              show connOpen (setClosed c0 st.conns) c = true
              rw [connOpen_setClosed_ne c0 c hne]
              exact hopen
            exact (hsub hopen1).trans (List.sublist_append_right _ d')

theorem expireRoom_hits (st : RelayState) (r : String)
    (members : List String) (h : find? r st.rooms = some members)
    (hnd : members.Nodup) :
    find? r (expireRoom st r).rooms = none ∧
    find? r (expireRoom st r).roomExpiry = none ∧
    ∃ d, (expireRoom st r).events = st.events ++ d ∧
      ∀ c ∈ members,
        Ev.closed c 1000 "Room expired after 24 hours" ∈ d ∧
        (connOpen st.conns c = true →
          List.Sublist [Ev.sent c ServerMsg.roomExpired,
            Ev.closed c 1000 "Room expired after 24 hours"] d) := by
  have hex : (find? r st.rooms).isSome := by rw [h]; rfl
  refine ⟨?_, ?_, ?_⟩
  · rw [expireRoom_rooms, if_pos hex, find?_eraseA_self]
  · rw [expireRoom_roomExpiry, if_pos hex, find?_eraseA_self]
  · obtain ⟨d, hd, hp⟩ := foldClose_events members st hnd
    refine ⟨d, ?_, hp⟩
    have : (expireRoom st r).events = (members.foldl closeMember st).events := by
      simp only [expireRoom, h]
    rw [this, hd]

theorem expireRoom_other (st : RelayState) (a r : String)
    (members : List String) (hinv : Inv st)
    (h : find? r st.rooms = some members) (hne : a ≠ r) :
    find? r (expireRoom st a).rooms = some members ∧
    find? r (expireRoom st a).roomExpiry = find? r st.roomExpiry ∧
    (∀ c ∈ members,
      connOpen (expireRoom st a).conns c = connOpen st.conns c) := by
  have hra : r ≠ a := fun hq => hne hq.symm
  refine ⟨?_, ?_, ?_⟩
  · rw [expireRoom_rooms]
    by_cases hex : (find? a st.rooms).isSome
    · rw [if_pos hex, find?_eraseA_ne r a hra]
      exact h
    · rw [if_neg hex]
      exact h
  · rw [expireRoom_roomExpiry]
    by_cases hex : (find? a st.rooms).isSome
    · rw [if_pos hex, find?_eraseA_ne r a hra]
    · rw [if_neg hex]
  · intro c hc
    cases hex2 : find? a st.rooms with
    | none =>
        have heq : expireRoom st a = st := by simp [expireRoom, hex2]
        rw [heq]
    | some ams =>
        have hconns : (expireRoom st a).conns =
            (ams.foldl closeMember st).conns := by
          simp only [expireRoom, hex2]
        rw [hconns]
        apply foldClose_connOpen_notMem
        intro hcin
        obtain ⟨ci1, hf1, hr1⟩ := hinv.memCoh a ams c hex2 hcin
        obtain ⟨ci2, hf2, hr2⟩ := hinv.memCoh r members c h hc
        rw [hf1] at hf2
        exact hne (by rw [← hr1, Option.some.inj hf2, hr2])

theorem foldExpire_hits (l : List String) :
    ∀ (st : RelayState) (r : String) (members : List String),
      Inv st → find? r st.rooms = some members → r ∈ l →
      find? r (l.foldl expireRoom st).rooms = none ∧
      find? r (l.foldl expireRoom st).roomExpiry = none ∧
      ∃ d, (l.foldl expireRoom st).events = st.events ++ d ∧
        ∀ c ∈ members,
          Ev.closed c 1000 "Room expired after 24 hours" ∈ d ∧
          (connOpen st.conns c = true →
            List.Sublist [Ev.sent c ServerMsg.roomExpired,
              Ev.closed c 1000 "Room expired after 24 hours"] d) := by
  induction l with
  | nil =>
      intro st r members _ _ habs
      exact absurd habs (List.not_mem_nil r)
  | cons a rest ih =>
      intro st r members hinv h hmem
      rw [List.foldl_cons]
      by_cases ha : a = r
      · subst ha
        obtain ⟨h1, h2, d0, hd0, hp0⟩ :=
          expireRoom_hits st a members h (hinv.membersNodup a members h)
        obtain ⟨h3, h4⟩ := foldExpire_absent rest (expireRoom st a) a h1 h2
        obtain ⟨d1, hd1⟩ := foldExpire_events_mono rest (expireRoom st a)
        refine ⟨h3, h4, d0 ++ d1, ?_, ?_⟩
        · rw [hd1, hd0, List.append_assoc]
        · intro c hc
          obtain ⟨hm0, hs0⟩ := hp0 c hc
          exact ⟨List.mem_append_left d1 hm0,
            fun hopen => (hs0 hopen).trans (List.sublist_append_left d0 d1)⟩
      · have hmem' : r ∈ rest := by
          rcases List.mem_cons.mp hmem with hq | hr
          · exact absurd hq.symm ha
          · exact hr
        obtain ⟨o1, o2, o3⟩ := expireRoom_other st a r members hinv h ha
        obtain ⟨d0, hd0⟩ := expireRoom_events_mono st a
        obtain ⟨h3, h4, d1, hd1, hp1⟩ :=
          ih (expireRoom st a) r members (inv_expireRoom st a hinv) o1 hmem'
        refine ⟨h3, h4, d0 ++ d1, ?_, ?_⟩
        · rw [hd1, hd0, List.append_assoc]
        · intro c hc
          obtain ⟨hm1, hs1⟩ := hp1 c hc
          refine ⟨List.mem_append_right d0 hm1, fun hopen => ?_⟩
          have hopen1 : connOpen (expireRoom st a).conns c = true := by
            rw [o3 c hc]
            exact hopen
          exact (hs1 hopen1).trans (List.sublist_append_right d0 d1)

theorem mem_expiredList (st : RelayState) (now : Nat) (r : String) (e : Nat)
    (he : find? r st.roomExpiry = some e) (hlt : e < now) :
    r ∈ (st.roomExpiry.filter (fun p => decide (p.2 < now))).map Prod.fst := by
  have hpair : (r, e) ∈ st.roomExpiry := find?_mem he
  have hfil : (r, e) ∈ st.roomExpiry.filter (fun p => decide (p.2 < now)) :=
    List.mem_filter.mpr ⟨hpair, by simpa using hlt⟩
  exact List.mem_map.mpr ⟨(r, e), hfil, rfl⟩

/-- C9 amended: for a reachable state and a room whose recorded expiry is
strictly in the past, one cleanup tick removes the room from both maps,
closes every tick-time member with code 1000 and reason "Room expired
after 24 hours", and sends each member whose transport was open at tick
time a `room-expired` message before its close (members whose transports
were already non-open are closed but, per `sendToClient`, not sent the
message). -/
theorem C9_expired_room_swept (cfg : Config) (st : RelayState) (now : Nat)
    (r : String) (members : List String) (e : Nat)
    (hreach : Reachable cfg st)
    (he : find? r st.roomExpiry = some e) (hlt : e < now)
    (hm : find? r st.rooms = some members) :
    find? r (cleanupTick st now).rooms = none ∧
    find? r (cleanupTick st now).roomExpiry = none ∧
    ∃ d, (cleanupTick st now).events = st.events ++ d ∧
      ∀ c ∈ members,
        Ev.closed c 1000 "Room expired after 24 hours" ∈ d ∧
        (connOpen st.conns c = true →
          List.Sublist [Ev.sent c ServerMsg.roomExpired,
            Ev.closed c 1000 "Room expired after 24 hours"] d) := by
  unfold cleanupTick
  exact foldExpire_hits _ st r members (inv_reachable cfg st hreach) hm
    (mem_expiredList st now r e he hlt)

/-- Witness for C9 amended: room `r1` with open members A and B, created
at time 0, swept at `24h + 1`: the room and its expiry entry are gone,
and each member is sent `room-expired` and then closed. -/
theorem C9_expired_room_swept_witness :
    find? "r1" (cleanupTick (run defaultConfig
      [Op.connect 0 "A" "/room/r1" none,
       Op.connect 1 "B" "/room/r1" none]) 86400001).rooms = none ∧
    find? "r1" (cleanupTick (run defaultConfig
      [Op.connect 0 "A" "/room/r1" none,
       Op.connect 1 "B" "/room/r1" none]) 86400001).roomExpiry = none ∧
    ∃ d, (cleanupTick (run defaultConfig
        [Op.connect 0 "A" "/room/r1" none,
         Op.connect 1 "B" "/room/r1" none]) 86400001).events =
      (run defaultConfig [Op.connect 0 "A" "/room/r1" none,
        Op.connect 1 "B" "/room/r1" none]).events ++ d ∧
      List.Sublist [Ev.sent "A" ServerMsg.roomExpired,
        Ev.closed "A" 1000 "Room expired after 24 hours"] d ∧
      List.Sublist [Ev.sent "B" ServerMsg.roomExpired,
        Ev.closed "B" 1000 "Room expired after 24 hours"] d := by
  obtain ⟨h1, h2, d, hd, hp⟩ := C9_expired_room_swept defaultConfig
    (run defaultConfig [Op.connect 0 "A" "/room/r1" none,
      Op.connect 1 "B" "/room/r1" none]) 86400001 "r1" ["A", "B"] 86400000
    ⟨[Op.connect 0 "A" "/room/r1" none, Op.connect 1 "B" "/room/r1" none],
      rfl⟩ (by decide) (by decide) (by decide)
  exact ⟨h1, h2, d, hd, (hp "A" (by decide)).2 (by decide),
    (hp "B" (by decide)).2 (by decide)⟩

end IwRelay
